import Mathlib

/-!
# Verification of the job-management service of docling-smart-document-parser

Shallow embedding of `backend/app/services/job_manager.py` (class `JobManager`)
together with the pieces of `app/models/schemas.py`, `app/core/exceptions.py`
and `app/core/config.py` that it uses.

Modelling conventions:
* `datetime.utcnow()` timestamps are abstract clock ticks (`Nat`); each
  operation receives the tick(s) it reads from the clock as parameters.
* The Python standard-library JSON codec (`json.loads` / `json.dumps`) is not
  repository code; it is abstracted as a `JsonCodec` parameter whose `parse`
  may fail (returning `none`, as `json.loads` raises `JSONDecodeError`) and
  whose `empty` stands for the empty dict `{}`.
* `self.jobs` is a Python `dict` (insertion ordered); it is modelled as an
  association list in insertion order.  Assignment to an existing key keeps
  its position; assignment to a fresh key appends.
* The conversion engine (`DoclingService.process_document`) is external to the
  job manager; it is a parameter `engine : String → Js → Except String
  ResultPayload` (file path and parsed options in, result dict or the message
  of the raised exception out).
* `self.active_jobs` is never written by any code path except deletions
  (`process_document`'s `finally` and `cancel_job`), so it is always empty;
  it is omitted from the state.
* `self.processing_queue = asyncio.Queue(maxsize=settings.max_concurrent_jobs)`
  is created in `__init__` and never referenced again anywhere in the
  repository; there is consequently no slot acquisition to embed in
  `process_document`.
-/

namespace DoclingParser

/-- `ProcessingStatus` from `app/models/schemas.py`. -/
inductive Status where
  | pending
  | processing
  | completed
  | failed
deriving DecidableEq, Repr

/-- `result["content"]` as produced by `DoclingService._convert_document`
(`markdown`, `html`, `json` keys; the structured JSON dict is opaque here). -/
structure ResultContent where
  markdown : String
  html : String
  jsonData : String
deriving DecidableEq, Repr

/-- `result["metadata"]` as produced by `DoclingService._convert_document`
and later patched by `JobManager.process_document`
(`result["metadata"]["processing_time"] = processing_time`). -/
structure ResultMetadata where
  pages : Nat
  processing_time : Nat
  elements_detected : Nat
  model_used : String
  file_type : String
deriving DecidableEq, Repr

/-- The result dict stored in `job["result"]`. -/
structure ResultPayload where
  content : ResultContent
  metadata : ResultMetadata
deriving DecidableEq, Repr

/-- Abstraction of Python's `json` module: `parse` models `json.loads`
(`none` when `JSONDecodeError` is raised), `dump` models `json.dumps`,
`empty` models the empty dict `{}`. -/
structure JsonCodec (Js : Type) where
  parse : String → Option Js
  dump : Js → String
  empty : Js

/-- One job record: the dict built in `JobManager.create_job`.  Keys that the
record may lack (`started_at`, `completed_at`, `message` — read via
`job.get(...)`) are `Option` fields initialised to `none`. -/
structure Job (Js : Type) where
  job_id : String
  filename : String
  file_path : String
  file_size : Nat
  status : Status
  progress : Nat
  created_at : Nat
  updated_at : Nat
  options : Js
  error : Option String
  result : Option ResultPayload
  message : Option String
  started_at : Option Nat
  completed_at : Option Nat
deriving DecidableEq, Repr

/-- `self.jobs : Dict[str, Dict]` in insertion order. -/
abbrev Store (Js : Type) := List (String × Job Js)

/-- Dictionary lookup `self.jobs[job_id]` / `job_id in self.jobs`. -/
def findJob {Js : Type} (s : Store Js) (jobId : String) : Option (Job Js) :=
  match s with
  | [] => none
  | (k, v) :: tl => if k = jobId then some v else findJob tl jobId

/-- In-place mutation of the record held at `jobId` (Python mutates the dict
object, so its position in the store is unchanged). -/
def updateJob {Js : Type} (s : Store Js) (jobId : String) (job : Job Js) : Store Js :=
  match s with
  | [] => []
  | (k, v) :: tl =>
      if k = jobId then (k, job) :: updateJob tl jobId job
      else (k, v) :: updateJob tl jobId job

/-- Dictionary assignment `self.jobs[job_id] = job_data`: replace in place if
present, append otherwise. -/
def insertJob {Js : Type} (s : Store Js) (jobId : String) (job : Job Js) : Store Js :=
  if (findJob s jobId).isSome then updateJob s jobId job else s ++ [(jobId, job)]

/-- The two exception classes of `app/core/exceptions.py` that `JobManager`
raises: `NotFoundError` and `ProcessingError`. -/
inductive Err where
  | notFound (msg : String)
  | processingError (msg : String)
deriving DecidableEq, Repr

/-- `StatusResponse` of `app/models/schemas.py` (fields filled by
`get_job_status`). -/
structure StatusResponse where
  job_id : String
  status : Status
  progress : Nat
  message : Option String
  started_at : Option Nat
  completed_at : Option Nat
  error : Option String
deriving DecidableEq, Repr

/-- `JobInfo` of `app/models/schemas.py`. -/
structure JobInfo where
  job_id : String
  filename : String
  status : Status
  created_at : Nat
  updated_at : Nat
  file_size : Nat
  progress : Nat
  error : Option String
deriving DecidableEq, Repr

/-- `JobListResponse` of `app/models/schemas.py`. -/
structure JobListResponse where
  jobs : List JobInfo
  total : Nat
  page : Nat
  per_page : Nat
deriving DecidableEq, Repr

/-- `DocumentMetadata` of `app/models/schemas.py`. -/
structure DocumentMetadata where
  pages : Nat
  processing_time : Nat
  elements_detected : Nat
  model_used : String
  file_size : Nat
  file_type : String
deriving DecidableEq, Repr

/-- `ResultResponse` of `app/models/schemas.py`; `get_job_result` passes
`created_at=job["completed_at"]`. -/
structure ResultResponse where
  job_id : String
  original_filename : String
  processed_content : ResultContent
  metadata : DocumentMetadata
  created_at : Option Nat
deriving DecidableEq, Repr

/-- `settings.max_concurrent_jobs` (`app/core/config.py`, line 49). -/
def max_concurrent_jobs : Nat := 5

/-- Option parsing as done in `create_job` (lines 55-60) and
`process_document` (lines 253-258): `if options:` is Python truthiness, so
`None` and the empty string both skip parsing; a `JSONDecodeError` is
swallowed, leaving the empty dict. -/
def parseOptions {Js : Type} (c : JsonCodec Js) (options : Option String) : Js :=
  match options with
  | none => c.empty
  | some s => if s.isEmpty then c.empty else (c.parse s).getD c.empty

/-- `JobManager.create_job`: build the record, store it, return a `JobInfo`.
Always succeeds. -/
def create_job {Js : Type} (c : JsonCodec Js) (now : Nat)
    (job_id filename file_path : String) (file_size : Nat)
    (options : Option String) (s : Store Js) : Store Js × JobInfo :=
  let job : Job Js :=
    { job_id := job_id
      filename := filename
      file_path := file_path
      file_size := file_size
      status := .pending
      progress := 0
      created_at := now
      updated_at := now
      options := parseOptions c options
      error := none
      result := none
      message := none
      started_at := none
      completed_at := none }
  let info : JobInfo :=
    { job_id := job_id
      filename := filename
      status := .pending
      created_at := now
      updated_at := now
      file_size := file_size
      progress := 0
      error := none }
  (insertJob s job_id job, info)

/-- `JobManager.get_job_status`: `NotFoundError` for an unknown id, else the
record's current fields. -/
def get_job_status {Js : Type} (s : Store Js) (jobId : String) :
    Except Err StatusResponse :=
  match findJob s jobId with
  | none => .error (.notFound ("Job " ++ jobId ++ " not found"))
  | some job =>
      .ok { job_id := jobId
            status := job.status
            progress := job.progress
            message := job.message
            started_at := job.started_at
            completed_at := job.completed_at
            error := job.error }

/-- The `ResultResponse` built at lines 148-165 of `get_job_result`:
content and metadata come from the stored result dict, `file_size` from the
job record, `created_at` from `job["completed_at"]`. -/
def resultResponseOf {Js : Type} (jobId : String) (job : Job Js)
    (r : ResultPayload) : ResultResponse :=
  { job_id := jobId
    original_filename := job.filename
    processed_content := r.content
    metadata :=
      { pages := r.metadata.pages
        processing_time := r.metadata.processing_time
        elements_detected := r.metadata.elements_detected
        model_used := r.metadata.model_used
        file_size := job.file_size
        file_type := r.metadata.file_type }
    created_at := job.completed_at }

/-- `JobManager.get_job_result`: `NotFoundError` for an unknown id, a
non-completed job, or a missing result (`if not job.get("result")`; the
result dicts stored by `process_document` are non-empty, so Python falsiness
coincides with absence). -/
def get_job_result {Js : Type} (s : Store Js) (jobId : String) :
    Except Err ResultResponse :=
  match findJob s jobId with
  | none => .error (.notFound ("Job " ++ jobId ++ " not found"))
  | some job =>
      if job.status ≠ Status.completed then
        .error (.notFound ("Job " ++ jobId ++ " is not completed"))
      else
        match job.result with
        | none => .error (.notFound ("No result available for job " ++ jobId))
        | some r => .ok (resultResponseOf jobId job r)

/-- `JobInfo` conversion used inside `list_jobs` (lines 201-213). -/
def jobInfoOf {Js : Type} (job : Job Js) : JobInfo :=
  { job_id := job.job_id
    filename := job.filename
    status := job.status
    created_at := job.created_at
    updated_at := job.updated_at
    file_size := job.file_size
    progress := job.progress
    error := job.error }

/-- The filter loop of `list_jobs` (lines 185-189): keep jobs matching the
optional status filter, in insertion order (`self.jobs.values()`). -/
def filterJobs {Js : Type} (status_filter : Option Status) (s : Store Js) :
    List (Job Js) :=
  (s.map (·.2)).filter (fun job =>
    match status_filter with
    | none => true
    | some f => job.status = f)

/-- The sort of `list_jobs` (line 192): stable sort by `created_at`, newest
first.  `list.sort(key=..., reverse=True)` is the stable descending sort;
`insertionSort` under this total preorder computes exactly the stable
descending sort, so the two agree on ties as well. -/
def sortByCreatedDesc {Js : Type} (l : List (Job Js)) : List (Job Js) :=
  l.insertionSort (fun a b => b.created_at ≤ a.created_at)

/-- `JobManager.list_jobs`: filter, sort newest-first, slice page
`(page-1)*per_page .. page*per_page-1`, convert to `JobInfo`.  Always
succeeds (a page past the end is just an empty slice). -/
def list_jobs {Js : Type} (page per_page : Nat) (status_filter : Option Status)
    (s : Store Js) : JobListResponse :=
  let filtered := sortByCreatedDesc (filterJobs status_filter s)
  let total := filtered.length
  let page_jobs := (filtered.drop ((page - 1) * per_page)).take per_page
  { jobs := page_jobs.map jobInfoOf
    total := total
    page := page
    per_page := per_page }

/-- The synchronous prefix of `process_document` (lines 240-266): the
mutations performed before the `await` of the conversion engine.  The record
ends at `progress = 30` (it passes through 10 and 20 within the same
uninterruptible block); `started_at` is the `utcnow()` read at entry, and the
intermediate `updated_at` writes collapse to the same tick. -/
def procStartJob {Js : Type} (now : Nat) (job : Job Js) : Job Js :=
  { job with
      status := .processing
      started_at := some now
      progress := 30
      updated_at := now }

/-- The resumption of `process_document` after the engine call (lines
268-296): on a result, mark completed with `progress = 100`, `completed_at`,
and store the result with its `processing_time` patched to the elapsed time
since `started_at`; on any exception, mark failed with the exception's
message and `completed_at`.  The `finally` block sets `updated_at` in both
branches (`active_jobs` deletion is a no-op: nothing ever populates it). -/
def procFinishJob {Js : Type} (tEnd : Nat)
    (outcome : Except String ResultPayload) (job : Job Js) : Job Js :=
  match outcome with
  | .ok r =>
      let pt := tEnd - job.started_at.getD 0
      { job with
          status := .completed
          progress := 100
          completed_at := some tEnd
          result := some { r with metadata := { r.metadata with processing_time := pt } }
          updated_at := tEnd }
  | .error msg =>
      { job with
          status := .failed
          error := some msg
          completed_at := some tEnd
          updated_at := tEnd }

/-- `JobManager.process_document` run to completion: an unknown id returns at
once leaving the store untouched (lines 236-238, no exception); otherwise the
pre-await mutations, the engine call on the parsed options (invalid JSON is
logged and replaced by `{}`), and the post-await mutations.  Any engine
exception is caught (lines 285-290): the function always returns normally. -/
def process_document {Js : Type} (c : JsonCodec Js)
    (engine : String → Js → Except String ResultPayload) (tStart tEnd : Nat)
    (jobId file_path : String) (options : Option String) (s : Store Js) :
    Store Js :=
  match findJob s jobId with
  | none => s
  | some job =>
      let job1 := procStartJob tStart job
      let parsed_options := parseOptions c options
      let job2 := procFinishJob tEnd (engine file_path parsed_options) job1
      updateJob s jobId job2

/-- `JobManager.cancel_job`: `NotFoundError` for an unknown id,
`ProcessingError` for a terminal job (raised before any mutation), otherwise
mark failed with the fixed message and `completed_at = now`.  (The
`active_jobs` cancellation branch is dead: `active_jobs` is never
populated.) -/
def cancel_job {Js : Type} (now : Nat) (s : Store Js) (jobId : String) :
    Except Err (Store Js) :=
  match findJob s jobId with
  | none => .error (.notFound ("Job " ++ jobId ++ " not found"))
  | some job =>
      if job.status = Status.completed ∨ job.status = Status.failed then
        .error (.processingError "Cannot cancel completed or failed job")
      else
        .ok (updateJob s jobId
          { job with
              status := .failed
              error := some "Job cancelled by user"
              completed_at := some now
              updated_at := now })

/-- Exception semantics of a `cancel` call at the API boundary: on a raise
the store is as the mutations left it — for `cancel_job` the raise happens
before any mutation, so the store is unchanged. -/
def cancelRun {Js : Type} (now : Nat) (s : Store Js) (jobId : String) :
    Store Js × Option Err :=
  match cancel_job now s jobId with
  | .ok s' => (s', none)
  | .error e => (s, some e)

/-- The reset performed by `retry_job` (lines 330-333) on a failed record:
back to `pending`, `progress = 0`, `error = None`, fresh `updated_at`.  No
other field is touched — in particular `completed_at` and `result` keep
their values. -/
def retryResetJob {Js : Type} (now : Nat) (job : Job Js) : Job Js :=
  { job with
      status := .pending
      progress := 0
      error := none
      updated_at := now }

/-- `JobManager.retry_job`: `NotFoundError` for an unknown id,
`ProcessingError` unless the job is failed; otherwise reset the record and
synchronously re-enter `process_document` with `json.dumps` of the options
snapshot taken at creation (line 336). -/
def retry_job {Js : Type} (c : JsonCodec Js)
    (engine : String → Js → Except String ResultPayload)
    (tReset tStart tEnd : Nat) (s : Store Js) (jobId : String) :
    Except Err (Store Js) :=
  match findJob s jobId with
  | none => .error (.notFound ("Job " ++ jobId ++ " not found"))
  | some job =>
      if job.status ≠ Status.failed then
        .error (.processingError "Can only retry failed jobs")
      else
        let s1 := updateJob s jobId (retryResetJob tReset job)
        .ok (process_document c engine tStart tEnd jobId job.file_path
              (some (c.dump job.options)) s1)

/-!
## Interleaving model

`process_document` runs as a background task and suspends exactly once, at
`await self.docling_service.process_document(...)` (which yields via
`run_in_executor`).  Everything before that `await` is one uninterruptible
block, everything after it another.  A system execution is therefore a
sequence of atomic steps: a `create` (the upload endpoint), the start block
of a run, the resumption of a run with the engine's outcome, a `cancel`
call, or the synchronous prefix of a `retry` call (its reset followed by the
start block of the run it re-enters; the resumption is again a
`runFinish`).  An operation whose Python counterpart raises leaves the store
unchanged (`JobManager` raises only before mutating). -/
inductive Op where
  | create (now : Nat) (job_id filename file_path : String) (file_size : Nat)
      (options : Option String)
  | runStart (now : Nat) (job_id : String)
  | runFinish (tEnd : Nat) (job_id : String)
      (outcome : Except String ResultPayload)
  | cancel (now : Nat) (job_id : String)
  | retryStart (tReset tStart : Nat) (job_id : String)

/-- One atomic step of the system. -/
def applyOp {Js : Type} (c : JsonCodec Js) (s : Store Js) : Op → Store Js
  | .create now job_id filename file_path file_size options =>
      (create_job c now job_id filename file_path file_size options s).1
  | .runStart now job_id =>
      match findJob s job_id with
      | none => s
      | some job => updateJob s job_id (procStartJob now job)
  | .runFinish tEnd job_id outcome =>
      match findJob s job_id with
      | none => s
      | some job => updateJob s job_id (procFinishJob tEnd outcome job)
  | .cancel now job_id =>
      match cancel_job now s job_id with
      | .ok s' => s'
      | .error _ => s
  | .retryStart tReset tStart job_id =>
      match findJob s job_id with
      | none => s
      | some job =>
          if job.status ≠ Status.failed then s
          else updateJob s job_id (procStartJob tStart (retryResetJob tReset job))

/-- Run a sequence of atomic steps from a store. -/
def applyOps {Js : Type} (c : JsonCodec Js) (s : Store Js) (ops : List Op) :
    Store Js :=
  ops.foldl (applyOp c) s

/-- A state of the system: some step sequence from the empty store (the
state `JobManager.__init__` leaves) produces it. -/
def Reachable {Js : Type} (c : JsonCodec Js) (s : Store Js) : Prop :=
  ∃ ops : List Op, applyOps c [] ops = s

/-- Number of job records currently in state `processing`. -/
def countProcessing {Js : Type} (s : Store Js) : Nat :=
  (s.filter (fun kv => kv.2.status = Status.processing)).length

/-- A concrete JSON codec over a one-value type, for evaluating the model on
concrete inputs: every string fails to parse. -/
def unitCodec : JsonCodec Unit :=
  { parse := fun _ => none, dump := fun _ => "", empty := () }

/-- A concrete JSON codec whose values are natural numbers: `dump v` is a
string of `v` characters and `parse` reads the length back, so
`parse (dump v) = some v`. -/
def natCodec : JsonCodec Nat :=
  { parse := fun s => some s.length
    dump := fun v => String.mk (List.replicate v 'a')
    empty := 0 }

/-! ## Concrete fixtures for witnesses -/

/-- A sample job record over the one-value JSON type. -/
def mkSampleJob (id : String) (st : Status) (created : Nat) : Job Unit :=
  { job_id := id
    filename := "doc.pdf"
    file_path := "/tmp/doc.pdf"
    file_size := 10
    status := st
    progress := 0
    created_at := created
    updated_at := created
    options := ()
    error := none
    result := none
    message := none
    started_at := none
    completed_at := none }

/-- A sample conversion result. -/
def samplePayload : ResultPayload :=
  { content := { markdown := "md", html := "<p>", jsonData := "j" }
    metadata :=
      { pages := 1
        processing_time := 0
        elements_detected := 2
        model_used := "granite"
        file_type := "application/pdf" } }

/-- Five sample jobs created in order A, B, C, D, E at increasing times. -/
def sampleStore5 : Store Unit :=
  [("A", mkSampleJob "A" .pending 1), ("B", mkSampleJob "B" .pending 2),
   ("C", mkSampleJob "C" .pending 3), ("D", mkSampleJob "D" .pending 4),
   ("E", mkSampleJob "E" .pending 5)]

instance instTotalCreatedDesc {Js : Type} :
    IsTotal (Job Js) (fun a b => b.created_at ≤ a.created_at) :=
  ⟨fun a b => Nat.le_total b.created_at a.created_at⟩

instance instTransCreatedDesc {Js : Type} :
    IsTrans (Job Js) (fun a b => b.created_at ≤ a.created_at) :=
  ⟨fun _ _ _ hab hbc => Nat.le_trans hbc hab⟩

/-- A failed job over the `Nat` JSON type: it failed earlier ("boom"), so
`completed_at` is set, and it carries the options snapshot `42` taken at
creation. -/
def sampleFailedJob : Job Nat :=
  { job_id := "j"
    filename := "doc.pdf"
    file_path := "/p"
    file_size := 10
    status := .failed
    progress := 0
    created_at := 1
    updated_at := 6
    options := 42
    error := some "boom"
    result := none
    message := none
    started_at := some 2
    completed_at := some 5 }

/-- Ops that create six jobs and start all six runs before any completes:
six coroutines suspended at the engine `await`, all their jobs
`processing`. -/
def floodOps6 : List Op :=
  [Op.create 1 "a" "doc.pdf" "/p" 0 none, Op.create 1 "b" "doc.pdf" "/p" 0 none,
   Op.create 1 "c" "doc.pdf" "/p" 0 none, Op.create 1 "d" "doc.pdf" "/p" 0 none,
   Op.create 1 "e" "doc.pdf" "/p" 0 none, Op.create 1 "g" "doc.pdf" "/p" 0 none,
   Op.runStart 2 "a", Op.runStart 2 "b", Op.runStart 2 "c",
   Op.runStart 2 "d", Op.runStart 2 "e", Op.runStart 2 "g"]


/-! ## Store lemmas -/

theorem findJob_updateJob_of_found {Js : Type} (s : Store Js) (jobId : String)
    (job j : Job Js) (h : findJob s jobId = some j) :
    findJob (updateJob s jobId job) jobId = some job := by
  induction s with
  | nil => simp [findJob] at h
  | cons kv tl ih =>
      obtain ⟨k, v⟩ := kv
      by_cases hk : k = jobId
      · subst hk
        simp [findJob, updateJob]
      · have h' : findJob tl jobId = some j := by
          simpa [findJob, hk] using h
        simpa [findJob, updateJob, hk] using ih h'

theorem findJob_updateJob_of_none {Js : Type} (s : Store Js) (jobId : String)
    (job : Job Js) (h : findJob s jobId = none) :
    findJob (updateJob s jobId job) jobId = none := by
  induction s with
  | nil => simp [findJob, updateJob]
  | cons kv tl ih =>
      obtain ⟨k, v⟩ := kv
      by_cases hk : k = jobId
      · subst hk
        simp [findJob] at h
      · have h' : findJob tl jobId = none := by
          simpa [findJob, hk] using h
        simpa [findJob, updateJob, hk] using ih h'

theorem findJob_append_of_none {Js : Type} (s : Store Js) (jobId : String)
    (job : Job Js) (h : findJob s jobId = none) :
    findJob (s ++ [(jobId, job)]) jobId = some job := by
  induction s with
  | nil => simp [findJob]
  | cons kv tl ih =>
      obtain ⟨k, v⟩ := kv
      by_cases hk : k = jobId
      · subst hk
        simp [findJob] at h
      · have h' : findJob tl jobId = none := by
          simpa [findJob, hk] using h
        simpa [findJob, hk] using ih h'

theorem findJob_insertJob_self {Js : Type} (s : Store Js) (jobId : String)
    (job : Job Js) : findJob (insertJob s jobId job) jobId = some job := by
  unfold insertJob
  by_cases h : (findJob s jobId).isSome
  · obtain ⟨j, hj⟩ := Option.isSome_iff_exists.mp h
    simp [h, findJob_updateJob_of_found s jobId job j hj]
  · have hn : findJob s jobId = none := Option.not_isSome_iff_eq_none.mp h
    simp [h, findJob_append_of_none s jobId job hn]


/-! ## Claim theorems -/

/-- C9: an options argument that is a string but not valid JSON is silently
discarded by `create_job`: the call still succeeds, the stored record is
`pending` with `progress = 0` and the empty options snapshot, and both the
resulting store and the returned `JobInfo` coincide with the call that omits
`options` altogether. -/
theorem create_job_invalid_options_ignored {Js : Type} (c : JsonCodec Js)
    (now : Nat) (job_id filename file_path : String) (file_size : Nat)
    (str : String) (s : Store Js) (hp : c.parse str = none) :
    create_job c now job_id filename file_path file_size (some str) s
      = create_job c now job_id filename file_path file_size none s
    ∧ (findJob (create_job c now job_id filename file_path file_size
          (some str) s).1 job_id).map
        (fun j => (j.status, j.progress, j.options, j.error))
      = some (Status.pending, 0, c.empty, none) := by
  have hopt : parseOptions c (some str) = c.empty := by
    unfold parseOptions
    by_cases he : str.isEmpty <;> simp [he, hp]
  constructor
  · simp only [create_job]
    rw [hopt]
    rfl
  · simp only [create_job]
    rw [findJob_insertJob_self]
    simp [hopt]

/-- Witness for C9 at a concrete malformed-JSON string. -/
theorem create_job_invalid_options_ignored_witness :
    create_job unitCodec 1 "j" "doc.pdf" "/p" 10 (some "notjson") []
      = create_job unitCodec 1 "j" "doc.pdf" "/p" 10 none []
    ∧ (findJob (create_job unitCodec 1 "j" "doc.pdf" "/p" 10
          (some "notjson") []).1 "j").map
        (fun j => (j.status, j.progress, j.options, j.error))
      = some (Status.pending, 0, unitCodec.empty, none) :=
  create_job_invalid_options_ignored unitCodec 1 "j" "doc.pdf" "/p" 10
    "notjson" [] rfl

/-- C10: invoking `process_document` for a job id absent from the store
returns normally and leaves the whole store unchanged, whereas
`get_job_status`, `get_job_result`, `cancel_job` and `retry_job` all raise
`NotFoundError` on that id. -/
theorem process_document_unknown_id {Js : Type} (c : JsonCodec Js)
    (engine : String → Js → Except String ResultPayload)
    (tStart tEnd t1 t2 t3 t4 : Nat) (jobId file_path : String)
    (options : Option String) (s : Store Js) (h : findJob s jobId = none) :
    process_document c engine tStart tEnd jobId file_path options s = s
    ∧ (∃ m, get_job_status s jobId = .error (.notFound m))
    ∧ (∃ m, get_job_result s jobId = .error (.notFound m))
    ∧ (∃ m, cancel_job t1 s jobId = .error (.notFound m))
    ∧ (∃ m, retry_job c engine t2 t3 t4 s jobId = .error (.notFound m)) := by
  refine ⟨?_, ?_, ?_, ?_, ?_⟩
  · simp [process_document, h]
  · simp [get_job_status, h]
  · simp [get_job_result, h]
  · simp [cancel_job, h]
  · simp [retry_job, h]

/-- Witness for C10 at the empty store. -/
theorem process_document_unknown_id_witness :
    process_document unitCodec (fun _ _ => Except.error "boom") 0 1 "x" "/p"
      none ([] : Store Unit) = []
    ∧ (∃ m, get_job_status ([] : Store Unit) "x" = .error (.notFound m))
    ∧ (∃ m, get_job_result ([] : Store Unit) "x" = .error (.notFound m))
    ∧ (∃ m, cancel_job 2 ([] : Store Unit) "x" = .error (.notFound m))
    ∧ (∃ m, retry_job unitCodec (fun _ _ => Except.error "boom") 3 4 5
          ([] : Store Unit) "x" = .error (.notFound m)) :=
  process_document_unknown_id unitCodec (fun _ _ => Except.error "boom")
    0 1 2 3 4 5 "x" "/p" none [] rfl

/-- C7: calling `cancel_job` on a job whose state is `completed` or `failed`
raises `ProcessingError` (the `InvalidState` domain error) before performing
any mutation, so the store — and in particular the job record with all its
fields — is unchanged. -/
theorem cancel_job_terminal_rejected {Js : Type} (now : Nat) (s : Store Js)
    (jobId : String) (job : Job Js) (hf : findJob s jobId = some job)
    (hst : job.status = Status.completed ∨ job.status = Status.failed) :
    cancelRun now s jobId
      = (s, some (.processingError "Cannot cancel completed or failed job")) := by
  simp [cancelRun, cancel_job, hf, hst]

/-- Witness for C7 on a store holding one completed job. -/
theorem cancel_job_terminal_rejected_witness :
    cancelRun 9 [("j", mkSampleJob "j" Status.completed 1)] "j"
      = ([("j", mkSampleJob "j" Status.completed 1)],
         some (.processingError "Cannot cancel completed or failed job")) :=
  cancel_job_terminal_rejected 9 [("j", mkSampleJob "j" Status.completed 1)]
    "j" (mkSampleJob "j" Status.completed 1) rfl (Or.inl rfl)

/-- C6: `get_job_result` fails with `NotFound` exactly when the id is absent,
the stored record is not `completed`, or its result field is absent; in the
remaining case it returns the response built from the stored result
payload. -/
theorem get_job_result_characterization {Js : Type} (s : Store Js)
    (jobId : String) :
    ((∃ m, get_job_result s jobId = .error (.notFound m))
      ↔ (findJob s jobId = none
          ∨ ∃ job, findJob s jobId = some job
              ∧ (job.status ≠ Status.completed ∨ job.result = none)))
    ∧ (∀ job r, findJob s jobId = some job → job.status = Status.completed →
        job.result = some r →
        get_job_result s jobId = .ok (resultResponseOf jobId job r)) := by
  cases hf : findJob s jobId with
  | none =>
      constructor
      · simp [get_job_result, hf]
      · intro job r hj
        simp [hf] at hj
  | some job =>
      constructor
      · by_cases hc : job.status = Status.completed
        · cases hr : job.result with
          | none => simp [get_job_result, hf, hc, hr]
          | some r => simp [get_job_result, hf, hc, hr]
        · simp [get_job_result, hf, hc]
      · intro job' r hj hc hr
        obtain rfl := Option.some.inj hj
        simp [get_job_result, hf, hc, hr]

/-- Witness for C6 on a one-job store holding a completed job with a result. -/
theorem get_job_result_characterization_witness :
    get_job_result
        [("j", { mkSampleJob "j" Status.completed 1 with
                   result := some samplePayload, completed_at := some 4 })] "j"
      = .ok (resultResponseOf "j"
          { mkSampleJob "j" Status.completed 1 with
              result := some samplePayload, completed_at := some 4 }
          samplePayload) :=
  (get_job_result_characterization
      [("j", { mkSampleJob "j" Status.completed 1 with
                 result := some samplePayload, completed_at := some 4 })]
      "j").2
    { mkSampleJob "j" Status.completed 1 with
        result := some samplePayload, completed_at := some 4 }
    samplePayload rfl rfl rfl

/-- C8: `list_jobs` reports as `total` the full count of records matching
the optional state filter, returns the slice
`(page-1)*perPage .. page*perPage-1` of those records sorted by `created_at`
descending (newest first — a sorted permutation of the filtered records),
and a page past the end yields an empty list rather than an error. -/
theorem list_jobs_paginates {Js : Type} (page per_page : Nat)
    (f : Option Status) (s : Store Js) (hp : 1 ≤ page) (hpp : 1 ≤ per_page) :
    (list_jobs page per_page f s).total = (filterJobs f s).length
    ∧ List.Sorted (fun a b => b.created_at ≤ a.created_at)
        (sortByCreatedDesc (filterJobs f s))
    ∧ (sortByCreatedDesc (filterJobs f s)).Perm (filterJobs f s)
    ∧ (list_jobs page per_page f s).jobs
        = (((sortByCreatedDesc (filterJobs f s)).drop
              ((page - 1) * per_page)).take per_page).map jobInfoOf
    ∧ ((filterJobs f s).length ≤ (page - 1) * per_page →
        (list_jobs page per_page f s).jobs = []) := by
  refine ⟨?_, ?_, ?_, ?_, ?_⟩
  · simp only [list_jobs]
    exact (List.perm_insertionSort _ _).length_eq
  · exact List.sorted_insertionSort _ _
  · exact List.perm_insertionSort _ _
  · rfl
  · intro hle
    have hlen : (sortByCreatedDesc (filterJobs f s)).length
        ≤ (page - 1) * per_page := by
      calc (sortByCreatedDesc (filterJobs f s)).length
          = (filterJobs f s).length := (List.perm_insertionSort _ _).length_eq
        _ ≤ (page - 1) * per_page := hle
    simp only [list_jobs]
    rw [List.drop_eq_nil_of_le hlen]
    simp

/-- Witness for C8: five jobs created in order A..E, two per page, give
pages [E,D], [C,B], [A], and page 4 is empty. -/
theorem list_jobs_paginates_witness :
    ((list_jobs 1 2 none sampleStore5).total
        = (filterJobs none sampleStore5).length
      ∧ List.Sorted (fun a b => b.created_at ≤ a.created_at)
          (sortByCreatedDesc (filterJobs none sampleStore5))
      ∧ (sortByCreatedDesc (filterJobs none sampleStore5)).Perm
          (filterJobs none sampleStore5)
      ∧ (list_jobs 1 2 none sampleStore5).jobs
          = (((sortByCreatedDesc (filterJobs none sampleStore5)).drop
                ((1 - 1) * 2)).take 2).map jobInfoOf
      ∧ ((filterJobs none sampleStore5).length ≤ (1 - 1) * 2 →
          (list_jobs 1 2 none sampleStore5).jobs = []))
    ∧ (list_jobs 1 2 none sampleStore5).jobs.map (fun i => i.job_id)
        = ["E", "D"]
    ∧ (list_jobs 2 2 none sampleStore5).jobs.map (fun i => i.job_id)
        = ["C", "B"]
    ∧ (list_jobs 3 2 none sampleStore5).jobs.map (fun i => i.job_id) = ["A"]
    ∧ (list_jobs 4 2 none sampleStore5).jobs = []
    ∧ (list_jobs 1 2 none sampleStore5).total = 5 :=
  ⟨list_jobs_paginates 1 2 none sampleStore5 (by decide) (by decide),
   by decide, by decide, by decide, by decide, by decide⟩

/-- C5: if the conversion engine raises inside `process_document`, the
exception is caught (the function — a total function here, matching that
the Python code returns normally under its catch-all `except`) and the
record ends `failed`, carrying the exception's message in `error` and a set
`completed_at`; moreover, no matter what the engine returns, the record is
never left in state `processing` after `process_document` returns. -/
theorem process_document_catches_engine_failure {Js : Type}
    (c : JsonCodec Js) (engine : String → Js → Except String ResultPayload)
    (tStart tEnd : Nat) (jobId file_path : String) (options : Option String)
    (s : Store Js) (job : Job Js) (msg : String)
    (hf : findJob s jobId = some job)
    (he : engine file_path (parseOptions c options) = .error msg) :
    (∃ job', findJob
        (process_document c engine tStart tEnd jobId file_path options s)
        jobId = some job'
      ∧ job'.status = Status.failed
      ∧ job'.error = some msg
      ∧ job'.completed_at = some tEnd)
    ∧ ∀ (engine2 : String → Js → Except String ResultPayload)
        (job' : Job Js),
        findJob (process_document c engine2 tStart tEnd jobId file_path
          options s) jobId = some job' →
        job'.status ≠ Status.processing := by
  constructor
  · refine ⟨procFinishJob tEnd (engine file_path (parseOptions c options))
        (procStartJob tStart job), ?_, ?_, ?_, ?_⟩
    · simp only [process_document, hf]
      exact findJob_updateJob_of_found s jobId _ job hf
    · simp [procFinishJob, he]
    · simp [procFinishJob, he, procStartJob]
    · simp [procFinishJob, he]
  · intro engine2 job' hfind
    simp only [process_document, hf] at hfind
    have hup := findJob_updateJob_of_found s jobId
      (procFinishJob tEnd (engine2 file_path (parseOptions c options))
        (procStartJob tStart job)) job hf
    rw [hup] at hfind
    obtain rfl := Option.some.inj hfind
    cases ho : engine2 file_path (parseOptions c options) with
    | ok r => simp [procFinishJob, ho]
    | error m => simp [procFinishJob, ho]

/-- Witness for C5: one pending job, an engine that always raises. -/
theorem process_document_catches_engine_failure_witness :
    (∃ job', findJob
        (process_document unitCodec (fun _ _ => Except.error "boom") 3 4 "j"
          "/p" none [("j", mkSampleJob "j" Status.pending 1)]) "j"
        = some job'
      ∧ job'.status = Status.failed
      ∧ job'.error = some "boom"
      ∧ job'.completed_at = some 4)
    ∧ ∀ (engine2 : String → Unit → Except String ResultPayload)
        (job' : Job Unit),
        findJob (process_document unitCodec engine2 3 4 "j" "/p" none
          [("j", mkSampleJob "j" Status.pending 1)]) "j" = some job' →
        job'.status ≠ Status.processing :=
  process_document_catches_engine_failure unitCodec
    (fun _ _ => Except.error "boom") 3 4 "j" "/p" none
    [("j", mkSampleJob "j" Status.pending 1)]
    (mkSampleJob "j" Status.pending 1) "boom" rfl rfl

/-- C4 counterexample: cancelling a pending job succeeds, but the stored
error message is the literal "Job cancelled by user", not the sentinel
"cancelled by user" the claim requires. -/
theorem cancel_sentinel_counterexample :
    ((cancel_job 7 [("j", mkSampleJob "j" Status.pending 1)] "j").toOption.bind
        (fun s' => findJob s' "j")).map (fun j => j.error)
      = some (some "Job cancelled by user")
    ∧ ((cancel_job 7 [("j", mkSampleJob "j" Status.pending 1)] "j").toOption.bind
        (fun s' => findJob s' "j")).map (fun j => j.error)
      ≠ some (some "cancelled by user") := by
  constructor
  · decide
  · decide

/-- C4 (amended): cancelling a job in state `pending` or `processing`
succeeds and leaves the record `failed` with `error` equal to the fixed
message "Job cancelled by user" and `completed_at` set to the cancellation
time (progress untouched). -/
theorem cancel_job_active_sets_failed {Js : Type} (now : Nat) (s : Store Js)
    (jobId : String) (job : Job Js) (hf : findJob s jobId = some job)
    (hst : job.status = Status.pending ∨ job.status = Status.processing) :
    ∃ s', cancel_job now s jobId = .ok s'
      ∧ ∃ job', findJob s' jobId = some job'
        ∧ job'.status = Status.failed
        ∧ job'.error = some "Job cancelled by user"
        ∧ job'.completed_at = some now
        ∧ job'.progress = job.progress := by
  have hng : ¬(job.status = Status.completed ∨ job.status = Status.failed) := by
    rcases hst with h | h <;> simp [h]
  refine ⟨updateJob s jobId
      { job with status := Status.failed,
                 error := some "Job cancelled by user",
                 completed_at := some now, updated_at := now }, ?_, ?_⟩
  · simp [cancel_job, hf, hng]
  · exact ⟨_, findJob_updateJob_of_found s jobId _ job hf, rfl, rfl, rfl, rfl⟩

/-- Witness for the amended C4 on a pending job. -/
theorem cancel_job_active_sets_failed_witness :
    ∃ s', cancel_job 7 [("j", mkSampleJob "j" Status.pending 1)] "j" = .ok s'
      ∧ ∃ job', findJob s' "j" = some job'
        ∧ job'.status = Status.failed
        ∧ job'.error = some "Job cancelled by user"
        ∧ job'.completed_at = some 7
        ∧ job'.progress = (mkSampleJob "j" Status.pending 1).progress :=
  cancel_job_active_sets_failed 7 [("j", mkSampleJob "j" Status.pending 1)]
    "j" (mkSampleJob "j" Status.pending 1) rfl (Or.inl rfl)

/-- C3 counterexample: retrying a failed job whose `completed_at` is `some 5`
does not leave the record as the claim demands.  `retry_job` never clears
`completed_at` (the reset keeps it at `some 5`), and because the re-run is
awaited inside `retry_job`, the record after the call is terminal
(`completed` with `completed_at = some 11` here), not `pending` with
`completedAt = null`. -/
theorem retry_clears_completedAt_counterexample :
    (((retry_job natCodec (fun _ _ => Except.ok samplePayload) 10 10 11
          [("j", sampleFailedJob)] "j").toOption.bind
        (fun s' => findJob s' "j")).map (fun j => (j.status, j.completed_at)))
      = some (Status.completed, some 11)
    ∧ some (Status.completed, (some 11 : Option Nat))
        ≠ some (Status.pending, (none : Option Nat))
    ∧ (retryResetJob 10 sampleFailedJob).completed_at = some 5
    ∧ (retryResetJob 10 sampleFailedJob).completed_at ≠ none := by
  refine ⟨by decide, by decide, by decide, by decide⟩

/-- C3 (amended): for a failed job, `retry_job` succeeds; its reset step puts
the record at `pending` with `progress = 0` and `error = null` but leaves
`completed_at` unchanged (it is *not* cleared); it then synchronously
re-enters `run` with `json.dumps` of the options snapshot taken at creation,
so (when the JSON round-trip recovers the snapshot) the engine is invoked on
the original options and the record `retry_job` leaves behind is again
terminal, reflecting that outcome with a fresh `completed_at`. -/
theorem retry_job_failed_resets_and_reruns {Js : Type} (c : JsonCodec Js)
    (engine : String → Js → Except String ResultPayload)
    (tReset tStart tEnd : Nat) (s : Store Js) (jobId : String) (job : Job Js)
    (hf : findJob s jobId = some job) (hst : job.status = Status.failed)
    (hrt : parseOptions c (some (c.dump job.options)) = job.options) :
    (retryResetJob tReset job).status = Status.pending
    ∧ (retryResetJob tReset job).progress = 0
    ∧ (retryResetJob tReset job).error = none
    ∧ (retryResetJob tReset job).completed_at = job.completed_at
    ∧ ∃ s' job', retry_job c engine tReset tStart tEnd s jobId = .ok s'
        ∧ findJob s' jobId = some job'
        ∧ job'.completed_at = some tEnd
        ∧ (∀ msg, engine job.file_path job.options = .error msg →
            job'.status = Status.failed ∧ job'.error = some msg)
        ∧ (∀ r, engine job.file_path job.options = .ok r →
            job'.status = Status.completed ∧ job'.progress = 100) := by
  refine ⟨rfl, rfl, rfl, rfl, ?_⟩
  have hf1 : findJob (updateJob s jobId (retryResetJob tReset job)) jobId
      = some (retryResetJob tReset job) :=
    findJob_updateJob_of_found s jobId _ job hf
  refine ⟨process_document c engine tStart tEnd jobId job.file_path
      (some (c.dump job.options))
      (updateJob s jobId (retryResetJob tReset job)),
    procFinishJob tEnd (engine job.file_path job.options)
      (procStartJob tStart (retryResetJob tReset job)), ?_, ?_, ?_, ?_, ?_⟩
  · simp [retry_job, hf, hst]
  · simp only [process_document, hf1, hrt]
    exact findJob_updateJob_of_found _ jobId _ _ hf1
  · cases ho : engine job.file_path job.options with
    | ok r => simp [procFinishJob, ho]
    | error m => simp [procFinishJob, ho]
  · intro msg hm
    simp [procFinishJob, hm]
  · intro r hr
    simp [procFinishJob, hr]

/-- Witness for the amended C3 at a concrete failed job with options 42 and
a succeeding engine. -/
theorem retry_job_failed_resets_and_reruns_witness :
    (retryResetJob 10 sampleFailedJob).status = Status.pending
    ∧ (retryResetJob 10 sampleFailedJob).progress = 0
    ∧ (retryResetJob 10 sampleFailedJob).error = none
    ∧ (retryResetJob 10 sampleFailedJob).completed_at
        = sampleFailedJob.completed_at
    ∧ ∃ s' job', retry_job natCodec (fun _ _ => Except.ok samplePayload)
          10 10 11 [("j", sampleFailedJob)] "j" = .ok s'
        ∧ findJob s' "j" = some job'
        ∧ job'.completed_at = some 11
        ∧ (∀ msg, (fun _ _ => Except.ok samplePayload : String → Nat →
              Except String ResultPayload) sampleFailedJob.file_path
              sampleFailedJob.options = .error msg →
            job'.status = Status.failed ∧ job'.error = some msg)
        ∧ (∀ r, (fun _ _ => Except.ok samplePayload : String → Nat →
              Except String ResultPayload) sampleFailedJob.file_path
              sampleFailedJob.options = .ok r →
            job'.status = Status.completed ∧ job'.progress = 100) :=
  retry_job_failed_resets_and_reruns natCodec
    (fun _ _ => Except.ok samplePayload) 10 10 11 [("j", sampleFailedJob)]
    "j" sampleFailedJob rfl rfl (by decide)

/-- C2 counterexample: create job "j", cancel it while `pending` (it becomes
`failed`, a terminal state), then let the run scheduled at upload start:
`process_document` does not check the job's state, so the failed job is
moved into `processing` — an escape from a terminal state that is not a
retry. -/
theorem terminal_state_escape_counterexample :
    (findJob (applyOps unitCodec []
        [Op.create 1 "j" "doc.pdf" "/p" 10 none, Op.cancel 2 "j"]) "j").map
      (fun j => j.status) = some Status.failed
    ∧ (findJob (applyOps unitCodec []
        [Op.create 1 "j" "doc.pdf" "/p" 10 none, Op.cancel 2 "j",
         Op.runStart 3 "j"]) "j").map
      (fun j => j.status) = some Status.processing
    ∧ Status.processing ≠ Status.failed
    ∧ Reachable unitCodec (applyOps unitCodec []
        [Op.create 1 "j" "doc.pdf" "/p" 10 none, Op.cancel 2 "j",
         Op.runStart 3 "j"]) := by
  refine ⟨by decide, by decide, by decide,
    ⟨[Op.create 1 "j" "doc.pdf" "/p" 10 none, Op.cancel 2 "j",
      Op.runStart 3 "j"], rfl⟩⟩

/-- C2 (amended): `completed` and `failed` are *not* escaped only by retry:
starting `process_document` for an existing job id moves the record into
`processing` unconditionally — including a job that was cancelled while
`pending` and sits in the terminal `failed` state. -/
theorem run_start_ignores_terminal_state {Js : Type} (c : JsonCodec Js)
    (now : Nat) (s : Store Js) (jobId : String) (job : Job Js)
    (hf : findJob s jobId = some job)
    (hst : job.status = Status.completed ∨ job.status = Status.failed) :
    (findJob (applyOp c s (Op.runStart now jobId)) jobId).map
      (fun j => j.status) = some Status.processing := by
  simp only [applyOp, hf]
  rw [findJob_updateJob_of_found s jobId _ job hf]
  rfl

/-- Witness for the amended C2: the run scheduled at upload restarts a job
that was cancelled (hence `failed`). -/
theorem run_start_ignores_terminal_state_witness :
    (findJob (applyOp unitCodec [("j", mkSampleJob "j" Status.failed 1)]
        (Op.runStart 3 "j")) "j").map
      (fun j => j.status) = some Status.processing :=
  run_start_ignores_terminal_state unitCodec 3
    [("j", mkSampleJob "j" Status.failed 1)] "j"
    (mkSampleJob "j" Status.failed 1) rfl (Or.inr rfl)

/-- C1 counterexample: a reachable state (six uploads, then all six
background runs reach the engine `await`) has six jobs in `processing`,
exceeding `maxConcurrentJobs = 5`: `process_document` acquires no
concurrency-limiter slot (the bounded queue built in `__init__` is never
used), so the claimed bound fails. -/
theorem concurrency_bound_counterexample :
    Reachable unitCodec (applyOps unitCodec [] floodOps6)
    ∧ countProcessing (applyOps unitCodec [] floodOps6) = 6
    ∧ max_concurrent_jobs < 6 :=
  ⟨⟨floodOps6, rfl⟩, by decide, by decide⟩

/-- C1 (amended): `process_document` acquires no concurrency-limiter slot,
so the number of jobs in `processing` is bounded only by the number of job
records: the bound `countProcessing ≤ store size` always holds, while
reachable states exceed `maxConcurrentJobs` processing jobs. -/
theorem processing_count_unbounded :
    (∀ (Js : Type) (s : Store Js), countProcessing s ≤ s.length)
    ∧ ∃ s : Store Unit, Reachable unitCodec s
        ∧ max_concurrent_jobs < countProcessing s :=
  ⟨fun _ s => List.length_filter_le _ s,
   ⟨applyOps unitCodec [] floodOps6, ⟨floodOps6, rfl⟩, by decide⟩⟩

end DoclingParser
